import Mathlib

/-!
Verification of the ADS-MQTT-Broker data-plane engine against its
specification.  Each section shallowly embeds one source component
(`src/circular-buffer.ts`, `src/event-queue.ts`, `src/persistence.ts`,
`src/ads-gateway.ts`, `src/ads-connection-manager.ts`,
`src/ads-symbol-discovery.ts`, `src/network-scanner.ts`) and proves or
refutes the spec's claims about it.

Modelling conventions:
* JavaScript numbers are modelled as `ℚ` (every finite IEEE-754 double is a
  rational, and all arithmetic appearing in the refuting/confirming instances
  below is exact in double precision).
* `Date.now()` / `process.hrtime` are passed in explicitly as `now` arguments.
* Fallible asynchronous operations are passed in as `Except`-valued inputs
  (the resolution of the awaited promise); a JS `throw` is `Except.error`.
* Side effects (event-emitter emissions, timer scheduling) are returned as
  explicit effect lists.
-/

namespace ADSBroker

/-- Value quality marker, from `circular-buffer.ts` (`'GOOD' | 'BAD' | 'UNCERTAIN'`). -/
inductive Quality where
  | good
  | bad
  | uncertain
deriving DecidableEq, Repr

/-- One historical sample, from `BufferEntry` in `circular-buffer.ts`. -/
structure BufferEntry (T : Type) where
  timestamp : Nat
  value : T
  quality : Quality
deriving DecidableEq, Repr

/-- The ring buffer state, from `CircularBuffer` in `circular-buffer.ts`.
`buffer` models the JS backing array as a map from slot index to the entry
stored there (`none` = still uninitialized slot of `new Array(capacity)`). -/
structure CircularBuffer (T : Type) where
  buffer : Nat → Option (BufferEntry T)
  head : Nat
  tail : Nat
  size : Nat
  capacity : Nat

namespace CircularBuffer

variable {T : Type}

/-- `new CircularBuffer(capacity)`: all fields zero, backing array empty. -/
def empty (capacity : Nat) : CircularBuffer T :=
  { buffer := fun _ => none, head := 0, tail := 0, size := 0, capacity := capacity }

/-- `push(value, quality)` from `circular-buffer.ts` lines 33-49.
`now` is the ambient `Date.now()`. -/
def push (b : CircularBuffer T) (now : Nat) (value : T) (quality : Quality) :
    CircularBuffer T :=
  let entry : BufferEntry T := { timestamp := now, value := value, quality := quality }
  let buffer' := fun j => if j = b.tail then some entry else b.buffer j
  let tail' := (b.tail + 1) % b.capacity
  if b.size < b.capacity then
    { b with buffer := buffer', tail := tail', size := b.size + 1 }
  else
    { b with buffer := buffer', tail := tail', head := (b.head + 1) % b.capacity }

/-- `latest()` from `circular-buffer.ts` lines 54-59. -/
def latest (b : CircularBuffer T) : Option (BufferEntry T) :=
  if b.size = 0 then none
  else b.buffer (if b.tail = 0 then b.capacity - 1 else b.tail - 1)

/-- `oldest()` from `circular-buffer.ts` lines 64-67. -/
def oldest (b : CircularBuffer T) : Option (BufferEntry T) :=
  if b.size = 0 then none
  else b.buffer b.head

/-- `at(index)` from `circular-buffer.ts` lines 72-76; the JS argument is an
arbitrary (possibly negative) integer, hence `Int`.  (`at` is a Lean keyword,
so the definition is named `atIndex`.) -/
def atIndex (b : CircularBuffer T) (index : Int) : Option (BufferEntry T) :=
  if index < 0 ∨ (b.size : Int) ≤ index then none
  else b.buffer ((b.head + index.toNat) % b.capacity)

/-- `length()` from `circular-buffer.ts` lines 179-181. -/
def length (b : CircularBuffer T) : Nat := b.size

/-- `isEmpty()` from `circular-buffer.ts`. -/
def isEmpty (b : CircularBuffer T) : Bool := b.size = 0

/-- `isFull()` from `circular-buffer.ts`. -/
def isFull (b : CircularBuffer T) : Bool := b.size = b.capacity

/-- `getCapacity()` from `circular-buffer.ts`. -/
def getCapacity (b : CircularBuffer T) : Nat := b.capacity

/-- `clear()` from `circular-buffer.ts`. -/
def clear (b : CircularBuffer T) : CircularBuffer T :=
  { b with head := 0, tail := 0, size := 0 }

/-- One push instruction: the ambient clock value, the value, the quality. -/
structure PushIn (T : Type) where
  now : Nat
  value : T
  quality : Quality
deriving DecidableEq, Repr

/-- The buffer entry a push instruction produces. -/
def PushIn.entry (p : PushIn T) : BufferEntry T :=
  { timestamp := p.now, value := p.value, quality := p.quality }

/-- Run a sequence of pushes left to right. -/
def pushAll (b : CircularBuffer T) (ps : List (PushIn T)) : CircularBuffer T :=
  ps.foldl (fun acc p => acc.push p.now p.value p.quality) b

/-- Characterization of the ring-buffer state reached by running a sequence
of pushes on a fresh buffer of capacity `k`: the slot layout, the tracked
indices, and the slot holding the most recent entry. -/
def Inv (k : Nat) (ps : List (PushIn T)) (b : CircularBuffer T) : Prop :=
  b.capacity = k ∧
  b.size = min ps.length k ∧
  b.head < k ∧
  b.tail < k ∧
  b.tail = ps.length % k ∧
  b.head = (ps.length - b.size) % k ∧
  (∀ i, i < b.size →
    b.buffer ((b.head + i) % k) = (ps[ps.length - b.size + i]?).map PushIn.entry) ∧
  (1 ≤ ps.length →
    b.buffer (if b.tail = 0 then k - 1 else b.tail - 1)
      = (ps[ps.length - 1]?).map PushIn.entry)

end CircularBuffer

/-- A JavaScript runtime value as it appears in buffer entries: a number
(finite doubles are rationals), a string, or a boolean. -/
inductive JsVal where
  | num (x : ℚ)
  | str (s : String)
  | boolean (b : Bool)
deriving DecidableEq, Repr

/-- `typeof value === 'number'` — the numeric payload, if any. -/
def JsVal.numOf : JsVal → Option ℚ
  | .num x => some x
  | _ => none

/-- `Number.MAX_VALUE`, the largest finite double `(2^53 - 1) * 2^971`. -/
def NumberMAXVALUE : ℚ := (2 ^ 53 - 1) * 2 ^ 971

/-- `Number.MIN_VALUE`, the smallest positive double `2^(-1074)`.  Note this
is a tiny positive number, not the most negative double. -/
def NumberMINVALUE : ℚ := 1 / 2 ^ 1074

/-- Return shape of `getStats()` in `circular-buffer.ts` lines 130-136
(`min`/`max`/`avg`/`latest` are optional in the source). -/
structure StatsResult where
  count : Nat
  min : Option ℚ
  max : Option ℚ
  avg : Option ℚ
  latest : Option JsVal
deriving DecidableEq, Repr

/-- One iteration of the `getStats` loop (`circular-buffer.ts` lines 145-154):
accumulator is `(min, max, sum)`; only numeric values update it.  The `none`
branch (an uninitialized slot) never fires for `i < size` in reachable
states. -/
def statsStep (acc : ℚ × ℚ × ℚ) (oe : Option (BufferEntry JsVal)) : ℚ × ℚ × ℚ :=
  match oe with
  | some e =>
    match e.value with
    | .num x => (min acc.1 x, max acc.2.1 x, acc.2.2 + x)
    | _ => acc
  | none => acc

/-- `getStats()` from `circular-buffer.ts` lines 130-165: loop over the
current entries in chronological slot order starting the fold at
`(Number.MAX_VALUE, Number.MIN_VALUE, 0)`; `min`/`max` are reported absent
exactly when the accumulator still equals its sentinel; `avg` is
`sum / this.size`. -/
def CircularBuffer.getStats (b : CircularBuffer JsVal) : StatsResult :=
  if b.size = 0 then { count := 0, min := none, max := none, avg := none, latest := none }
  else
    let acc := (List.range b.size).foldl
      (fun acc i => statsStep acc (b.buffer ((b.head + i) % b.capacity)))
      (NumberMAXVALUE, NumberMINVALUE, 0)
    { count := b.size,
      min := if acc.1 = NumberMAXVALUE then none else some acc.1,
      max := if acc.2.1 = NumberMINVALUE then none else some acc.2.1,
      avg := some (acc.2.2 / (b.size : ℚ)),
      latest := b.latest.map (fun e => e.value) }

/-- The pushes whose entries currently live in the buffer, in chronological
order: the last `min n k` elements of the push sequence. -/
def chronPushes (k : Nat) (ps : List (CircularBuffer.PushIn JsVal)) :
    List (CircularBuffer.PushIn JsVal) :=
  ps.drop (ps.length - min ps.length k)

/-- A single push of the numeric value -5. -/
def exNegPushes : List (CircularBuffer.PushIn JsVal) := [⟨0, .num (-5), .good⟩]

/-- A single push of a non-numeric (string) value. -/
def exStrPushes : List (CircularBuffer.PushIn JsVal) := [⟨0, .str "a", .good⟩]

/-- A mixed push sequence: two numbers around a string. -/
def exMixedPushes : List (CircularBuffer.PushIn JsVal) :=
  [⟨0, .num 1, .good⟩, ⟨1, .str "a", .good⟩, ⟨2, .num 3, .good⟩]

/-- A concrete push sequence (3 pushes) used to witness the buffer theorems. -/
def exPushes : List (CircularBuffer.PushIn ℚ) :=
  [⟨0, 1, .good⟩, ⟨1, 2, .good⟩, ⟨2, 3, .good⟩]

/-! ### Work Queue (`event-queue.ts`)

The variable-write queue processor (`setupQueueHandlers`, lines 123-135)
destructures the job, logs, emits `queue.variable-write` on the event bus
(fire and forget), reports progress 100 and returns
`{ success: true, timestamp: Date.now() }`. -/

/-- `VariableWriteJob` from `event-queue.ts` lines 26-34. -/
structure VariableWriteJob where
  connectionId : String
  variableId : String
  variableName : String
  value : JsVal
  source : String
  userId : Option String
  timestamp : Nat
deriving DecidableEq, Repr

/-- The value a Bull processor resolves with (`{ success, timestamp }`). -/
structure WriteResult where
  success : Bool
  timestamp : Nat
deriving DecidableEq, Repr

/-- Observable steps while one variable-write job is processed.  A
`sessionReport` would be the PLC Session reporting the write outcome back to
the handler; the handler in the source never produces (or waits for) one. -/
inductive WriteTraceEvent where
  | emitted (name : String)
  | progressed (pct : Nat)
  | sessionReport (ok : Bool)
  | acked (success : Bool) (timestamp : Nat)
deriving DecidableEq, Repr

/-- The processor's returned value (`event-queue.ts` line 134):
unconditionally `{ success: true, timestamp: Date.now() }`. -/
def variableWriteResult (_job : VariableWriteJob) (now : Nat) : WriteResult :=
  { success := true, timestamp := now }

/-- The processor's observable trace (`event-queue.ts` lines 123-135):
emit `queue.variable-write`, report progress 100, resolve (= acknowledge). -/
def variableWriteHandlerTrace (job : VariableWriteJob) (now : Nat) :
    List WriteTraceEvent :=
  [.emitted "queue.variable-write", .progressed 100,
   .acked (variableWriteResult job now).success (variableWriteResult job now).timestamp]

/-- A concrete write job. -/
def exWriteJob : VariableWriteJob :=
  { connectionId := "c1", variableId := "v1", variableName := "MAIN.setpoint",
    value := .num 42, source := "websocket", userId := none, timestamp := 1000 }

/-! ### Cache (`persistence.ts`, `RedisCache`)

`get` (lines 539-575) and `set` (lines 580-610) wrap the backend call in
`try { ... } finally { emit performance metric }` — there is NO `catch`: a
rejected backend operation propagates to the caller.  The inputs below are
the resolution of the awaited backend promise. -/

/-- `CacheEntry` as stored by `RedisCache.set` (msgpack payload). -/
structure CacheEntry (V : Type) where
  value : V
  timestamp : Nat
  ttl : Option Nat
deriving DecidableEq, Repr

/-- Cache events emitted via `emitCacheEvent`. -/
inductive CacheEvt where
  | hit
  | miss
  | set
  | delete
  | invalidate
deriving DecidableEq, Repr

/-- `RedisCache.get` (lines 539-575).  `backendRead` is the result of
`this.client.getBuffer(fullKey)` followed by msgpack decode; `now` is
`Date.now()`.  No data → miss; present but expired
(`ttl && now - timestamp > ttl*1000`, where a 0 TTL is falsy) → delete +
miss; otherwise hit.  A backend rejection propagates (no catch). -/
def redisGet {V : Type} (backendRead : Except String (Option (CacheEntry V)))
    (now : Nat) : Except String (Option V × List CacheEvt) :=
  match backendRead with
  | .error e => .error e
  | .ok none => .ok (none, [.miss])
  | .ok (some entry) =>
      match entry.ttl with
      | some t =>
          if t ≠ 0 ∧ t * 1000 < now - entry.timestamp then .ok (none, [.delete, .miss])
          else .ok (some entry.value, [.hit])
      | none => .ok (some entry.value, [.hit])

/-- `RedisCache.set` (lines 580-610).  `backendWrite` is the result of
`setex`/`set` on the backend; on success the `set` cache event is emitted.
A backend rejection propagates (no catch). -/
def redisSet (backendWrite : Except String Unit) : Except String (List CacheEvt) :=
  match backendWrite with
  | .error e => .error e
  | .ok _ => .ok [.set]

/-! ### PLC Session / Connection Manager (`ads-gateway.ts`,
`ads-connection-manager.ts`) -/

/-- `AdsVariable['type']` from `ads-gateway.ts` line 8. -/
inductive AdsType where
  | bool
  | byte
  | word
  | dword
  | int
  | dint
  | real
  | lreal
  | string
deriving DecidableEq, Repr

/-- `AdsVariable` from `ads-gateway.ts` lines 4-17.  `lastUpdate` (an ISO
timestamp string in the source) is modelled as the instant it denotes;
`useNotification` is optional in the source, hence `Option Bool`. -/
structure AdsVar where
  id : String
  name : String
  path : String
  type : AdsType
  pollInterval : Nat
  mqttTopic : String
  value : Option JsVal
  timestamp : Option Nat
  lastUpdate : Option Nat
  updateRate : Option ℚ
  error : Option String
  useNotification : Option Bool
deriving DecidableEq, Repr

/-- Side effects the gateway/manager code performs: event-emitter emissions
(with the connection or variable id of the payload), `setTimeout`,
`setInterval`, and an ADS device-notification subscription. -/
inductive MgrEffect where
  | emitEvent (name : String) (subjectId : String)
  | scheduleTimeout (delayMs : Nat)
  | scheduleInterval (periodMs : Nat)
  | subscribeNotification (path : String) (cycleTimeMs : Nat)
deriving DecidableEq, Repr

/-- The manager's `gateway.on('error', ...)` handler
(`ads-connection-manager.ts` lines 77-79): it forwards the error as a
`connection-error` event and does nothing else. -/
def handleGatewayError (connectionId _name : String) : List MgrEffect :=
  [.emitEvent "connection-error" connectionId]

/-- The manager's `gateway.on('variable-error', ...)` handler
(`ads-connection-manager.ts` lines 85-87): it forwards the error as a
`variable-error` event annotated with the connection id and does nothing
else. -/
def handleVariableError (connectionId : String) : List MgrEffect :=
  [.emitEvent "variable-error" connectionId]

/-- One execution of the `poll` closure in `AdsGateway.startPolling`
(`ads-gateway.ts` lines 215-243), for a non-struct value.  `readResult` is
the resolution of `readValue`; on success the variable is refreshed and
`variable-changed` is emitted; on failure only the `error` field is set (the
last-good `value`/`timestamp` are left in place) and `variable-error` is
emitted. -/
def pollTick (v : AdsVar) (readResult : Except String JsVal) (now : Nat)
    (durationMicros : ℚ) : AdsVar × List MgrEffect :=
  match readResult with
  | .ok value =>
      ({ v with
          lastUpdate := some now,
          updateRate := some durationMicros,
          value := some value,
          timestamp := some now,
          error := none },
       [.emitEvent "variable-changed" v.id])
  | .error e =>
      ({ v with error := some e },
       [.emitEvent "variable-error" v.id])

/-- `const useNotification = variable.useNotification !== false` from
`AdsGateway.addVariable` (`ads-gateway.ts` line 120): an absent flag counts
as `true`. -/
def effectiveUseNotification (v : AdsVar) : Bool :=
  match v.useNotification with
  | some false => false
  | _ => true

/-- The `AdsHandle` record of `ads-gateway.ts` lines 19-26.  `pollTimer` and
`notificationHandle` record the PRESENCE of the NodeJS interval / the ADS
subscription (the source stores the handles themselves). -/
structure AdsHandle where
  handle : Nat
  varData : AdsVar
  lastValue : Option JsVal
  pollTimer : Bool
  notificationHandle : Bool
  useNotification : Bool
deriving DecidableEq, Repr

/-- The handle built by `AdsGateway.addVariable` (`ads-gateway.ts` lines
122-128) before `startPolling` runs: no timer, no notification yet. -/
def mkAddHandle (v : AdsVar) (value : JsVal) (handleId : Nat) : AdsHandle :=
  { handle := handleId, varData := v, lastValue := some value,
    pollTimer := false, notificationHandle := false,
    useNotification := effectiveUseNotification v }

/-- `AdsGateway.startPolling` (`ads-gateway.ts` lines 165-247).
`clientPresent` is `this.client !== null`; `subscribeResult` is the
resolution of `client.subscribe` (only consulted on the notification path).
Notification success installs the subscription (cycle time 1 ms) and
returns; notification failure falls back to polling; otherwise an interval
of `pollInterval` ms is installed. -/
def startPolling (h : AdsHandle) (clientPresent : Bool)
    (subscribeResult : Except String Unit) : AdsHandle × List MgrEffect :=
  if h.useNotification && clientPresent then
    match subscribeResult with
    | .ok _ =>
        ({ h with notificationHandle := true },
         [.subscribeNotification h.varData.path 1])
    | .error _ =>
        ({ h with pollTimer := true }, [.scheduleInterval h.varData.pollInterval])
  else
    ({ h with pollTimer := true }, [.scheduleInterval h.varData.pollInterval])

/-- `AdsGateway.guessTypeFromValue` (`ads-gateway.ts` lines 348-359);
`Number.isInteger` is `den = 1` on a rational.  (The `DWORD` fallback for
object-typed values is unreachable for the scalar values modelled here.) -/
def guessTypeFromValue (value : JsVal) : AdsType :=
  match value with
  | .boolean _ => .bool
  | .num x =>
      if x.den = 1 then
        (if -32768 ≤ x ∧ x ≤ 32767 then .int else .dint)
      else .real
  | .str _ => .string

/-- The virtual sub-variable built for a struct field by
`AdsGateway.createVirtualSubVariables` (`ads-gateway.ts` lines 306-318). -/
def mkSubVariable (parent : AdsVar) (fieldName : String) (fieldValue : JsVal)
    (now : Nat) : AdsVar :=
  { id := parent.id ++ "_" ++ fieldName,
    name := parent.path ++ "." ++ fieldName,
    path := parent.path ++ "." ++ fieldName,
    type := guessTypeFromValue fieldValue,
    pollInterval := parent.pollInterval,
    mqttTopic := parent.mqttTopic ++ "/" ++ fieldName,
    value := some fieldValue,
    timestamp := some now,
    lastUpdate := parent.lastUpdate,
    updateRate := parent.updateRate,
    error := none,
    useNotification := none }

/-- The handle stored for a virtual sub-variable
(`ads-gateway.ts` lines 320-326): only `handle`, `variable` and `lastValue`
are set — no poll timer, no notification handle, and `startPolling` is never
called for it. -/
def mkSubHandle (parent : AdsVar) (fieldName : String) (fieldValue : JsVal)
    (now handleId : Nat) : AdsHandle :=
  { handle := handleId,
    varData := mkSubVariable parent fieldName fieldValue now,
    lastValue := some fieldValue,
    pollTimer := false,
    notificationHandle := false,
    useNotification := false }

/-- A concrete registered parent variable of struct type. -/
def exParentVar : AdsVar :=
  { id := "v1", name := "MAIN.motor", path := "MAIN.motor", type := .dword,
    pollInterval := 100, mqttTopic := "ads/c1/MAIN/motor", value := none,
    timestamp := none, lastUpdate := none, updateRate := none, error := none,
    useNotification := some true }

/-! ### Symbol Discovery (`ads-symbol-discovery.ts`) -/

/-- `PlcSymbol` from `ads-symbol-discovery.ts` lines 5-13. -/
structure PlcSymbol where
  name : String
  indexGroup : Nat
  indexOffset : Nat
  size : Nat
  dataType : String
  comment : Option String
  flags : Nat
deriving DecidableEq, Repr

/-- A symbol as returned by the ADS client's `getSymbols()`. -/
structure AdsRawSymbol where
  name : String
  indexGroup : Nat
  indexOffset : Nat
  size : Nat
  type : String
  comment : Option String
  flags : Nat
deriving DecidableEq, Repr

/-- `SymbolDiscoveryConfig` from `ads-symbol-discovery.ts` lines 15-21;
the `RegExp` name filter is modelled as a Boolean predicate on names
(`filter.test(name)`). -/
structure SymbolDiscoveryConfig where
  autoDiscovery : Bool
  discoveryInterval : Nat
  autoAddVariables : Bool
  symbolFilter : Option (String → Bool)
  defaultPollInterval : Nat

/-- `name.replace(/\./g, c)` — replace every dot of a symbol path,
character by character. -/
def replaceDots (s : String) (r : Char) : String :=
  ⟨s.data.map (fun c => if c = '.' then r else c)⟩

/-- `mapPlcTypeToAdsType` from `ads-symbol-discovery.ts` lines 252-266
(unknown type names fall back to `DWORD`). -/
def mapPlcTypeToAdsType (plcType : String) : AdsType :=
  if plcType = "BOOL" then .bool
  else if plcType = "BYTE" then .byte
  else if plcType = "WORD" then .word
  else if plcType = "DWORD" then .dword
  else if plcType = "INT" then .int
  else if plcType = "DINT" then .dint
  else if plcType = "REAL" then .real
  else if plcType = "LREAL" then .lreal
  else if plcType = "STRING" then .string
  else .dword

/-- `symbolsToVariables` from `ads-symbol-discovery.ts` lines 271-284: each
surviving symbol yields a Variable whose id/topic derive from the symbol
path, whose `pollInterval` is the configured `defaultPollInterval`, and
whose remaining optional fields — `useNotification` included — are left
unset. -/
def symbolsToVariables (connectionId : String) (cfg : SymbolDiscoveryConfig)
    (symbols : List PlcSymbol) : List AdsVar :=
  symbols.map fun symbol =>
    { id := connectionId ++ "_" ++ replaceDots symbol.name '_',
      name := symbol.name,
      path := symbol.name,
      type := mapPlcTypeToAdsType symbol.dataType,
      pollInterval := cfg.defaultPollInterval,
      mqttTopic := "ads/" ++ connectionId ++ "/" ++ replaceDots symbol.name '/',
      value := none,
      timestamp := none,
      lastUpdate := none,
      updateRate := none,
      error := none,
      useNotification := none }

/-- `Map.set` on a string-keyed map modelled as an association list:
overwrite in place when the key exists, append otherwise. -/
def upsertAssoc {A : Type} (m : List (String × A)) (key : String) (a : A) :
    List (String × A) :=
  if m.any (fun p => p.1 == key) then
    m.map (fun p => if p.1 == key then (key, a) else p)
  else m ++ [(key, a)]

/-- Mutable state of `AdsSymbolDiscovery`: the symbol table (`Map` in
insertion order), the last observed OnlineChange counter and the
concurrent-run guard. -/
structure DiscoveryState where
  symbols : List (String × PlcSymbol)
  lastSymbolVersion : Nat
  isDiscovering : Bool
deriving DecidableEq, Repr

/-- The discovery events the service emits. -/
inductive DiscoveryEvent where
  | onlineChangeDetected (connectionId : String) (version : Nat) (symbolCount : Nat)
  | symbolsDiscovered (connectionId : String) (symbols : List PlcSymbol)
      (total : Nat) (filtered : Nat)
  | variablesDiscovered (connectionId : String) (vars : List AdsVar)
  | discoveryError (connectionId : String)
deriving DecidableEq, Repr

/-- `discoverSymbols` from `ads-symbol-discovery.ts` lines 132-197.
`symbolsRead` is the resolution of `adsClient.getSymbols()`; a rejection is
re-thrown (the catch re-throws).  Survivors of the name filter are recorded
in the symbol table and emitted; if `autoAddVariables` is set the derived
Variables are emitted as well. -/
def discoverSymbols (connectionId : String) (cfg : SymbolDiscoveryConfig)
    (st : DiscoveryState) (symbolsRead : Except String (List AdsRawSymbol)) :
    Except String (DiscoveryState × List DiscoveryEvent × List PlcSymbol) :=
  match symbolsRead with
  | .error e => .error e
  | .ok raws =>
      let kept := raws.filter fun r =>
        match cfg.symbolFilter with
        | some f => f r.name
        | none => true
      let syms : List PlcSymbol := kept.map fun r =>
        { name := r.name,
          indexGroup := r.indexGroup,
          indexOffset := r.indexOffset,
          size := r.size,
          dataType := r.type,
          comment := r.comment,
          flags := r.flags }
      let st' := { st with
        symbols := syms.foldl (fun m s => upsertAssoc m s.name s) st.symbols }
      let evs := [DiscoveryEvent.symbolsDiscovered connectionId syms raws.length
          syms.length] ++
        (if cfg.autoAddVariables then
          [DiscoveryEvent.variablesDiscovered connectionId
            (symbolsToVariables connectionId cfg syms)]
        else [])
      .ok (st', evs, syms)

/-- `checkForChanges` from `ads-symbol-discovery.ts` lines 87-118.  Skip if
a run is in flight; read the OnlineChange counter (`versionRead`); if it
equals the last observed value do nothing; otherwise record it, enumerate
symbols and emit `online-change-detected` after the discovery events.  Any
throw is caught and reported as `discovery-error`; `isDiscovering` is reset
in the `finally`. -/
def checkForChanges (connectionId : String) (cfg : SymbolDiscoveryConfig)
    (st : DiscoveryState) (versionRead : Except String Nat)
    (symbolsRead : Except String (List AdsRawSymbol)) :
    DiscoveryState × List DiscoveryEvent :=
  if st.isDiscovering then (st, [])
  else
    match versionRead with
    | .error _ => (st, [.discoveryError connectionId])
    | .ok v =>
        if v = st.lastSymbolVersion then (st, [])
        else
          let st1 := { st with lastSymbolVersion := v }
          match discoverSymbols connectionId cfg st1 symbolsRead with
          | .error _ => (st1, [.discoveryError connectionId])
          | .ok (st2, evs, _) =>
              (st2, evs ++ [.onlineChangeDetected connectionId v st2.symbols.length])

/-- A concrete discovery configuration (no name filter, auto-register on). -/
def exDiscoveryCfg : SymbolDiscoveryConfig :=
  { autoDiscovery := true, discoveryInterval := 5000, autoAddVariables := true,
    symbolFilter := none, defaultPollInterval := 1000 }

/-- A concrete idle discovery state with last observed counter 7. -/
def exDiscoveryState : DiscoveryState :=
  { symbols := [], lastSymbolVersion := 7, isDiscovering := false }

/-- A concrete PLC symbol surviving the (absent) name filter. -/
def exSymbol : PlcSymbol :=
  { name := "MAIN.temp", indexGroup := 16448, indexOffset := 0, size := 4,
    dataType := "REAL", comment := none, flags := 0 }

/-- The Variable `symbolsToVariables` derives from `exSymbol` on connection
`c1` under `exDiscoveryCfg`. -/
def exDerivedVar : AdsVar :=
  { id := "c1_MAIN_temp", name := "MAIN.temp", path := "MAIN.temp",
    type := .real, pollInterval := 1000, mqttTopic := "ads/c1/MAIN/temp",
    value := none, timestamp := none, lastUpdate := none, updateRate := none,
    error := none, useNotification := none }

/-! ### Performance Monitor (`network-scanner.ts`, `PerformanceMonitor`) -/

/-- `OperationMetrics` as produced by `getOperationMetrics`
(`network-scanner.ts` lines 439-450). -/
structure OperationMetrics where
  operation : String
  count : Nat
  totalDuration : Nat
  minDuration : Nat
  maxDuration : Nat
  avgDuration : ℚ
  p50 : Nat
  p95 : Nat
  p99 : Nat
  lastUpdate : Nat
deriving DecidableEq, Repr

/-- The monitor's state (`network-scanner.ts` lines 332-334): the per-
operation duration arrays and counters (string-keyed maps in insertion
order) and the per-operation sample cap. -/
structure PerfMonitor where
  metrics : List (String × List Nat)
  operationCounts : List (String × Nat)
  maxMetricsPerOperation : Nat
deriving DecidableEq, Repr

/-- `Map.get` on the association-list model. -/
def lookupAssoc {A : Type} (m : List (String × A)) (key : String) : Option A :=
  (m.find? (fun p => p.1 == key)).map (fun p => p.2)

/-- `recordMetric` (`network-scanner.ts` lines 406-426): append the duration,
bump the counter, and drop the oldest sample (`shift()`) once the array
exceeds the cap. -/
def recordMetric (m : PerfMonitor) (operation : String) (durationNs : Nat) :
    PerfMonitor :=
  let durations := ((lookupAssoc m.metrics operation).getD []) ++ [durationNs]
  let durations :=
    if m.maxMetricsPerOperation < durations.length then durations.tail else durations
  let count := ((lookupAssoc m.operationCounts operation).getD 0) + 1
  { m with
    metrics := upsertAssoc m.metrics operation durations,
    operationCounts := upsertAssoc m.operationCounts operation count }

/-- `percentile` (`network-scanner.ts` lines 585-590):
`Math.max(0, Math.ceil(p/100 * n) - 1)`, written with the integer ceiling
`(p*n + 99) / 100`; natural subtraction already clamps at 0. -/
def percentile (sortedValues : List Nat) (p : Nat) : Nat :=
  if sortedValues.length = 0 then 0
  else sortedValues.getD ((p * sortedValues.length + 99) / 100 - 1) 0

/-- `getOperationMetrics` (`network-scanner.ts` lines 431-451).  `now` is
`Date.now()`; note the source sets `lastUpdate: Date.now()` — the QUERY
time, not the time the operation last recorded a sample. -/
def getOperationMetrics (m : PerfMonitor) (operation : String) (now : Nat) :
    Option OperationMetrics :=
  match lookupAssoc m.metrics operation with
  | none => none
  | some durations =>
      if durations.length = 0 then none
      else
        let sorted := durations.mergeSort (fun a b => a ≤ b)
        some
          { operation := operation,
            count := (lookupAssoc m.operationCounts operation).getD 0,
            totalDuration := durations.sum,
            minDuration := sorted.getD 0 0,
            maxDuration := sorted.getD (sorted.length - 1) 0,
            avgDuration := (durations.sum : ℚ) / (durations.length : ℚ),
            p50 := percentile sorted 50,
            p95 := percentile sorted 95,
            p99 := percentile sorted 99,
            lastUpdate := now }

/-- `cleanup` (`network-scanner.ts` lines 664-676): delete every operation
whose `getOperationMetrics` reports a `lastUpdate` older than one hour
(`maxAge = 3600000` ms) at the time `now` of the pass. -/
def cleanup (m : PerfMonitor) (now : Nat) : PerfMonitor :=
  let staleOps := (m.metrics.filter (fun p =>
    match getOperationMetrics m p.1 now with
    | some om => decide (3600000 < now - om.lastUpdate)
    | none => false)).map (fun p => p.1)
  { m with
    metrics := m.metrics.filter (fun p => ! staleOps.contains p.1),
    operationCounts := m.operationCounts.filter (fun p => ! staleOps.contains p.1) }

namespace CircularBuffer

variable {T : Type}
theorem inv_empty (k : Nat) (hk : 0 < k) : Inv k ([] : List (PushIn T)) (empty k) := by
  refine ⟨rfl, by simp [empty], by simpa [empty] using hk, by simpa [empty] using hk,
    by simp [empty], by simp [empty], ?_, ?_⟩
  · intro i hi
    simp [empty] at hi
  · intro h
    simp at h

theorem tail_slot_eq (k t : Nat) (ht : t < k) :
    (if (t + 1) % k = 0 then k - 1 else (t + 1) % k - 1) = t := by
  rcases Nat.lt_or_ge (t + 1) k with h | h
  · rw [Nat.mod_eq_of_lt h, if_neg (by omega)]
    omega
  · have hkt : t + 1 = k := by omega
    rw [hkt, Nat.mod_self, if_pos rfl]
    omega

theorem add_mod_ne (k a d : Nat) (ha : a < k) (hd1 : 0 < d) (hd2 : d < k) :
    (a + d) % k ≠ a := by
  rcases Nat.lt_or_ge (a + d) k with h | h
  · rw [Nat.mod_eq_of_lt h]
    omega
  · have h2 : a + d - k < k := by omega
    rw [Nat.mod_eq_sub_mod h, Nat.mod_eq_of_lt h2]
    omega

theorem inv_push (k : Nat) (hk : 0 < k) (ps : List (PushIn T)) (b : CircularBuffer T)
    (h : Inv k ps b) (p : PushIn T) :
    Inv k (ps ++ [p]) (b.push p.now p.value p.quality) := by
  obtain ⟨hcap, hsize, hheadlt, htaillt, htail, hhead, hslots, -⟩ := h
  have hlen : (ps ++ [p]).length = ps.length + 1 := by simp
  by_cases hlt : b.size < b.capacity
  · -- not yet full: n < k, head = 0, tail = n
    have hnk : ps.length < k := by omega
    have hsz : b.size = ps.length := by omega
    have hhead0 : b.head = 0 := by
      rw [hhead, hsz]
      simp
    have htailn : b.tail = ps.length := by
      rw [htail, Nat.mod_eq_of_lt hnk]
    have hpush : b.push p.now p.value p.quality =
        { b with
          buffer := fun j => if j = b.tail then some p.entry else b.buffer j,
          tail := (b.tail + 1) % b.capacity,
          size := b.size + 1 } := by
      simp [push, hlt, PushIn.entry]
    rw [hpush]
    refine ⟨hcap, ?_, ?_, ?_, ?_, ?_, ?_, ?_⟩
    · simp [hlen]
      omega
    · simpa using hheadlt
    · simp [hcap]
      exact Nat.mod_lt _ hk
    · simp [hcap, hlen, htailn]
    · simp [hlen, hsz, hhead0]
    · -- slots
      intro i hi
      simp only at hi ⊢
      have hi' : i < ps.length + 1 := by omega
      have hidx : (b.head + i) % k = i := by
        rw [hhead0]
        simpa using Nat.mod_eq_of_lt (by omega)
      rw [hidx, hlen]
      have harith : ps.length + 1 - (b.size + 1) + i = i := by omega
      rw [harith]
      by_cases hie : i = b.tail
      · rw [if_pos hie]
        rw [hie, htailn, List.getElem?_concat_length]
        rfl
      · rw [if_neg hie]
        have hilt : i < ps.length := by
          rw [htailn] at hie
          omega
        have := hslots i (by omega)
        rw [hhead0] at this
        simp only [Nat.zero_add] at this
        rw [Nat.mod_eq_of_lt (by omega : i < k)] at this
        rw [List.getElem?_append, if_pos hilt]
        rw [this, hsz]
        have : ps.length - ps.length + i = i := by omega
        rw [this]
    · -- latest
      intro _
      have hidx := tail_slot_eq k b.tail htaillt
      rw [hcap, hidx]
      simp [hlen, PushIn.entry]
  · -- full: size = k ≤ n, head = tail
    have hsz : b.size = k := by omega
    have hnk : k ≤ ps.length := by omega
    have hheadtail : b.head = b.tail := by
      rw [hhead, htail, hsz]
      conv_rhs => rw [← Nat.sub_add_cancel hnk, Nat.add_mod_right]
    have hpush : b.push p.now p.value p.quality =
        { b with
          buffer := fun j => if j = b.tail then some p.entry else b.buffer j,
          tail := (b.tail + 1) % b.capacity,
          head := (b.head + 1) % b.capacity } := by
      simp [push, hlt, PushIn.entry]
    rw [hpush]
    refine ⟨hcap, ?_, ?_, ?_, ?_, ?_, ?_, ?_⟩
    · simp [hlen, hsz]
      omega
    · simp [hcap]
      exact Nat.mod_lt _ hk
    · simp [hcap]
      exact Nat.mod_lt _ hk
    · simp [hcap, hlen, htail, Nat.mod_add_mod]
    · simp [hlen, hsz, hcap, hhead, Nat.mod_add_mod]
      have h1 : ps.length - k + 1 = ps.length + 1 - k := by omega
      rw [h1]
    · -- slots
      intro i hi
      simp only at hi ⊢
      have hik : i < k := by omega
      have hidx : ((b.head + 1) % b.capacity + i) % k = (b.head + (1 + i)) % k := by
        rw [hcap, Nat.mod_add_mod, Nat.add_assoc]
      rw [hidx, hlen]
      by_cases hie : i = k - 1
      · -- the newly written slot
        have hslot : (b.head + (1 + i)) % k = b.tail := by
          rw [hie]
          have : b.head + (1 + (k - 1)) = b.head + k := by omega
          rw [this, Nat.add_mod_right, Nat.mod_eq_of_lt hheadlt, hheadtail]
        rw [hslot]
        simp only [if_pos rfl]
        have harith : ps.length + 1 - b.size + i = ps.length := by omega
        rw [harith, List.getElem?_concat_length]
        rfl
      · -- an old slot, shifted by one
        have hd2 : 1 + i < k := by omega
        have hne : (b.head + (1 + i)) % k ≠ b.tail := by
          rw [← hheadtail]
          exact add_mod_ne k b.head (1 + i) hheadlt (by omega) hd2
        rw [if_neg hne]
        have hold := hslots (i + 1) (by omega)
        have : b.head + (1 + i) = b.head + (i + 1) := by omega
        rw [this, hold, hsz]
        have hlt2 : ps.length + 1 - k + i < ps.length := by omega
        rw [List.getElem?_append, if_pos hlt2]
        have : ps.length - k + (i + 1) = ps.length + 1 - k + i := by omega
        rw [this]
    · -- latest
      intro _
      have hidx := tail_slot_eq k b.tail htaillt
      rw [hcap, hidx]
      simp [hlen, PushIn.entry]

theorem inv_pushAll (k : Nat) (hk : 0 < k) (ps : List (PushIn T)) :
    Inv k ps (pushAll (empty k) ps) := by
  induction ps using List.reverseRecOn with
  | nil => exact inv_empty k hk
  | append_singleton ps p ih =>
      have : pushAll (empty k) (ps ++ [p]) =
          (pushAll (empty k) ps).push p.now p.value p.quality := by
        simp [pushAll]
      rw [this]
      exact inv_push k hk ps _ ih p

end CircularBuffer

open CircularBuffer in
/-- C2: Ring Buffer overwrite law.  For every buffer of capacity `k > 0` and
every sequence `ps` of `n > k` pushes: afterwards `length() = k`, `oldest()`
returns the `(n-k+1)`-th pushed value (index `n-k`, 0-based), `latest()`
returns the `n`-th pushed value, and no push sequence ever grows the buffer
past its capacity. -/
theorem C2_overwrite_law (k : Nat) (hk : 0 < k) (ps : List (CircularBuffer.PushIn ℚ))
    (hn : k < ps.length) :
    (pushAll (empty k) ps).length = k ∧
    (pushAll (empty k) ps).oldest = (ps[ps.length - k]?).map PushIn.entry ∧
    (ps[ps.length - k]?).isSome ∧
    (pushAll (empty k) ps).latest = (ps[ps.length - 1]?).map PushIn.entry ∧
    (ps[ps.length - 1]?).isSome ∧
    ∀ qs : List (CircularBuffer.PushIn ℚ), (pushAll (empty k) qs).size ≤ k := by
  obtain ⟨hcap, hsize, hheadlt, htaillt, htail, hhead, hslots, hlast⟩ :=
    inv_pushAll k hk ps
  have hsz : (pushAll (empty k) ps).size = k := by
    rw [hsize]
    omega
  refine ⟨hsz, ?_, ?_, ?_, ?_, ?_⟩
  · rw [oldest, if_neg (by omega)]
    have h0 := hslots 0 (by omega)
    rw [hsz] at h0
    simpa [Nat.mod_eq_of_lt hheadlt] using h0
  · rw [List.getElem?_eq_getElem (by omega)]
    rfl
  · rw [latest, if_neg (by omega), hcap]
    exact hlast (by omega)
  · rw [List.getElem?_eq_getElem (by omega)]
    rfl
  · intro qs
    obtain ⟨-, hsize', -⟩ := inv_pushAll k hk qs
    rw [hsize']
    omega

open CircularBuffer in
/-- C10: totality of ring-buffer indexing.  For every buffer reached by a
sequence of pushes and every integer `i`, `at(i)` returns `null` when `i < 0`
or `i ≥ length()`, and returns the `i`-th entry in chronological order
(0 = oldest) when `0 ≤ i < length()`; in range it never reads an
uninitialized slot (the result is always `some`). -/
theorem C10_at_totality (k : Nat) (hk : 0 < k) (ps : List (CircularBuffer.PushIn ℚ))
    (i : Int) :
    ((i < 0 ∨ ((pushAll (empty k) ps).size : Int) ≤ i) →
      (pushAll (empty k) ps).atIndex i = none) ∧
    (0 ≤ i → i < ((pushAll (empty k) ps).size : Int) →
      (pushAll (empty k) ps).atIndex i =
        (ps[ps.length - (pushAll (empty k) ps).size + i.toNat]?).map PushIn.entry ∧
      ((pushAll (empty k) ps).atIndex i).isSome) := by
  obtain ⟨hcap, hsize, hheadlt, htaillt, htail, hhead, hslots, hlast⟩ :=
    inv_pushAll k hk ps
  constructor
  · intro hout
    rw [atIndex, if_pos hout]
  · intro h0 hlt
    have hi : i.toNat < (pushAll (empty k) ps).size := by omega
    have heq : (pushAll (empty k) ps).atIndex i =
        (ps[ps.length - (pushAll (empty k) ps).size + i.toNat]?).map PushIn.entry := by
      rw [atIndex, if_neg (by omega), hcap]
      exact hslots i.toNat hi
    refine ⟨heq, ?_⟩
    rw [heq]
    have : ps.length - (pushAll (empty k) ps).size + i.toNat < ps.length := by omega
    rw [List.getElem?_eq_getElem this]
    rfl

/-- Folding a function of the element over `List.range l.length` with an
index-reader that agrees with `l` equals folding over `l` itself. -/
theorem foldl_range_read {A B : Type} (g : B → A → B) (read : Nat → A) :
    ∀ (l : List A) (init : B),
      (∀ i (hi : i < l.length), read i = l[i]) →
      (List.range l.length).foldl (fun acc i => g acc (read i)) init = l.foldl g init := by
  intro l
  induction l using List.reverseRecOn with
  | nil => intro init h; rfl
  | append_singleton l a ih =>
      intro init h
      have hlen : (l ++ [a]).length = l.length + 1 := by simp
      rw [hlen, List.range_succ, List.foldl_append, List.foldl_append]
      have hl : ∀ i (hi : i < l.length), read i = l[i] := by
        intro i hi
        have := h i (by simp; omega)
        rwa [List.getElem_append_left hi] at this
      rw [ih init hl]
      simp only [List.foldl_cons, List.foldl_nil]
      have := h l.length (by simp)
      rw [this, List.getElem_concat_length]
      rfl

/-- Folding `statsStep` computes the running min/max over the numeric values
and their sum. -/
theorem foldl_statsStep (es : List (Option (BufferEntry JsVal))) :
    ∀ a b c : ℚ,
      es.foldl statsStep (a, b, c) =
        ((es.filterMap (fun oe => oe.bind (fun e => e.value.numOf))).foldl min a,
         (es.filterMap (fun oe => oe.bind (fun e => e.value.numOf))).foldl max b,
         c + (es.filterMap (fun oe => oe.bind (fun e => e.value.numOf))).sum) := by
  induction es with
  | nil => intro a b c; simp
  | cons oe es ih =>
      intro a b c
      match oe with
      | none => simpa [statsStep] using ih a b c
      | some e =>
          match hv : e.value with
          | .num x =>
              have ihx := ih (min a x) (max b x) (c + x)
              simp only [List.foldl_cons, statsStep, hv]
              rw [ihx]
              simp [hv, JsVal.numOf, List.filterMap_cons, add_assoc]
          | .str s => simpa [statsStep, hv, JsVal.numOf] using ih a b c
          | .boolean bb => simpa [statsStep, hv, JsVal.numOf] using ih a b c

theorem foldl_min_le_init (vs : List ℚ) : ∀ a : ℚ, vs.foldl min a ≤ a := by
  induction vs with
  | nil => intro a; simp
  | cons v vs ih => intro a; exact le_trans (ih (min a v)) (min_le_left a v)

theorem foldl_min_le_mem (vs : List ℚ) : ∀ a x, x ∈ vs → vs.foldl min a ≤ x := by
  induction vs with
  | nil => intro a x hx; simp at hx
  | cons v vs ih =>
      intro a x hx
      rcases List.mem_cons.mp hx with h | h
      · subst h
        exact le_trans (foldl_min_le_init vs (min a x)) (min_le_right a x)
      · exact ih (min a v) x h

theorem foldl_min_cases (vs : List ℚ) : ∀ a, vs.foldl min a = a ∨ vs.foldl min a ∈ vs := by
  induction vs with
  | nil => intro a; left; rfl
  | cons v vs ih =>
      intro a
      rcases ih (min a v) with h | h
      · rcases min_choice a v with hm | hm
        · left
          rw [List.foldl_cons, h, hm]
        · right
          rw [List.foldl_cons, h, hm]
          exact List.mem_cons_self v vs
      · right
        exact List.mem_cons_of_mem v h

theorem foldl_max_init_le (vs : List ℚ) : ∀ a : ℚ, a ≤ vs.foldl max a := by
  induction vs with
  | nil => intro a; simp
  | cons v vs ih => intro a; exact le_trans (le_max_left a v) (ih (max a v))

theorem foldl_max_mem_le (vs : List ℚ) : ∀ a x, x ∈ vs → x ≤ vs.foldl max a := by
  induction vs with
  | nil => intro a x hx; simp at hx
  | cons v vs ih =>
      intro a x hx
      rcases List.mem_cons.mp hx with h | h
      · subst h
        exact le_trans (le_max_right a x) (foldl_max_init_le vs (max a x))
      · exact ih (max a v) x h

theorem foldl_max_cases (vs : List ℚ) : ∀ a, vs.foldl max a = a ∨ vs.foldl max a ∈ vs := by
  induction vs with
  | nil => intro a; left; rfl
  | cons v vs ih =>
      intro a
      rcases ih (max a v) with h | h
      · rcases max_choice a v with hm | hm
        · left
          rw [List.foldl_cons, h, hm]
        · right
          rw [List.foldl_cons, h, hm]
          exact List.mem_cons_self v vs
      · right
        exact List.mem_cons_of_mem v h

open CircularBuffer in
/-- C6 (amended): for every non-empty reachable buffer, `stats()` returns
`count` equal to the number of stored entries and the latest stored value
regardless of type; `average` is the sum of the numeric-valued entries
divided by the TOTAL entry count (not the numeric count) and is present even
when no entry is numeric; `min` (resp. `max`) equals the minimum (resp.
maximum) over the numeric-valued entries provided some numeric entry is
below `Number.MAX_VALUE` (resp. above `Number.MIN_VALUE`) — otherwise the
sentinel makes it absent. -/
theorem C6_stats_amended (k : Nat) (hk : 0 < k) (ps : List (CircularBuffer.PushIn JsVal))
    (hps : ps ≠ []) :
    (pushAll (empty k) ps).getStats.count = (pushAll (empty k) ps).size ∧
    (pushAll (empty k) ps).getStats.latest = (ps[ps.length - 1]?).map (fun p => p.value) ∧
    (pushAll (empty k) ps).getStats.avg =
      some (((chronPushes k ps).filterMap (fun p => p.value.numOf)).sum /
        ((pushAll (empty k) ps).size : ℚ)) ∧
    ((∃ x ∈ (chronPushes k ps).filterMap (fun p => p.value.numOf), x < NumberMAXVALUE) →
      ∃ m, (pushAll (empty k) ps).getStats.min = some m ∧
        m ∈ (chronPushes k ps).filterMap (fun p => p.value.numOf) ∧
        ∀ w ∈ (chronPushes k ps).filterMap (fun p => p.value.numOf), m ≤ w) ∧
    ((∃ x ∈ (chronPushes k ps).filterMap (fun p => p.value.numOf), NumberMINVALUE < x) →
      ∃ m, (pushAll (empty k) ps).getStats.max = some m ∧
        m ∈ (chronPushes k ps).filterMap (fun p => p.value.numOf) ∧
        ∀ w ∈ (chronPushes k ps).filterMap (fun p => p.value.numOf), w ≤ m) := by
  obtain ⟨hcap, hsize, hheadlt, htaillt, htail, hhead, hslots, hlast⟩ :=
    inv_pushAll k hk ps
  have hn1 : 1 ≤ ps.length := by
    cases ps with
    | nil => exact absurd rfl hps
    | cons a t => simp
  have hne : ¬ (pushAll (empty k) ps).size = 0 := by
    rw [hsize]
    omega
  set B := pushAll (empty k) ps with hB
  set nums := (chronPushes k ps).filterMap (fun p => p.value.numOf) with hnumsdef
  set l : List (Option (BufferEntry JsVal)) :=
    (chronPushes k ps).map (fun p => some p.entry) with hl
  have hllen : l.length = B.size := by
    rw [hl]
    simp only [List.length_map, chronPushes, List.length_drop, hsize]
    omega
  have hread : ∀ i (hi : i < l.length), B.buffer ((B.head + i) % B.capacity) = l[i] := by
    intro i hi
    have hi' : i < B.size := hllen ▸ hi
    have hidx : ps.length - B.size + i < ps.length := by
      rw [hsize] at hi' ⊢
      omega
    have hs := hslots i hi'
    rw [List.getElem?_eq_getElem hidx] at hs
    have hq : l[i]? = some (some (PushIn.entry (ps[ps.length - B.size + i]))) := by
      rw [hl, List.getElem?_map]
      simp only [chronPushes]
      rw [List.getElem?_drop]
      rw [show ps.length - ps.length ⊓ k + i = ps.length - B.size + i from by rw [hsize]]
      rw [List.getElem?_eq_getElem hidx]
      rfl
    have hg := List.getElem?_eq_getElem hi
    have hli : l[i] = some (PushIn.entry (ps[ps.length - B.size + i])) :=
      Option.some.inj (hg.symm.trans hq)
    rw [hcap, hs, hli]
    rfl
  have hlat : B.latest = (ps[ps.length - 1]?).map PushIn.entry := by
    rw [CircularBuffer.latest, if_neg hne, hcap]
    exact hlast hn1
  have hfold := foldl_range_read statsStep
    (fun i => B.buffer ((B.head + i) % B.capacity)) l
    (NumberMAXVALUE, NumberMINVALUE, 0) hread
  rw [hllen] at hfold
  have hnums : l.filterMap (fun oe => oe.bind (fun e => e.value.numOf)) = nums := by
    rw [hl, hnumsdef, List.filterMap_map]
    rfl
  have hfm := foldl_statsStep l NumberMAXVALUE NumberMINVALUE 0
  rw [hnums] at hfm
  have hgs : B.getStats =
      { count := B.size,
        min := if nums.foldl min NumberMAXVALUE = NumberMAXVALUE then none
          else some (nums.foldl min NumberMAXVALUE),
        max := if nums.foldl max NumberMINVALUE = NumberMINVALUE then none
          else some (nums.foldl max NumberMINVALUE),
        avg := some ((0 + nums.sum) / (B.size : ℚ)),
        latest := B.latest.map (fun e => e.value) } := by
    rw [CircularBuffer.getStats, if_neg hne]
    rw [hfold, hfm]
  refine ⟨?_, ?_, ?_, ?_, ?_⟩
  · rw [hgs]
  · rw [hgs]
    simp only
    rw [hlat, Option.map_map]
    rfl
  · rw [hgs]
    simp only
    rw [zero_add]
  · rintro ⟨x, hxmem, hxlt⟩
    have hmle : nums.foldl min NumberMAXVALUE ≤ x := foldl_min_le_mem nums _ x hxmem
    have hmne : nums.foldl min NumberMAXVALUE ≠ NumberMAXVALUE := by
      intro h
      rw [h] at hmle
      exact absurd hxlt (not_lt.mpr hmle)
    refine ⟨nums.foldl min NumberMAXVALUE, ?_, ?_, ?_⟩
    · rw [hgs]
      simp only
      rw [if_neg hmne]
    · rcases foldl_min_cases nums NumberMAXVALUE with h | h
      · exact absurd h hmne
      · exact h
    · intro w hw
      exact foldl_min_le_mem nums _ w hw
  · rintro ⟨x, hxmem, hxlt⟩
    have hmle : x ≤ nums.foldl max NumberMINVALUE := foldl_max_mem_le nums _ x hxmem
    have hmne : nums.foldl max NumberMINVALUE ≠ NumberMINVALUE := by
      intro h
      rw [h] at hmle
      exact absurd hxlt (not_lt.mpr hmle)
    refine ⟨nums.foldl max NumberMINVALUE, ?_, ?_, ?_⟩
    · rw [hgs]
      simp only
      rw [if_neg hmne]
    · rcases foldl_max_cases nums NumberMINVALUE with h | h
      · exact absurd h hmne
      · exact h
    · intro w hw
      exact foldl_max_mem_le nums _ w hw

open CircularBuffer in
/-- C6 counterexample.  A buffer holding the single numeric entry -5 has
numeric maximum -5, yet `stats().max` is absent, because the `max`
accumulator starts at `Number.MIN_VALUE` (a tiny POSITIVE number) and so
never moves for all-negative data.  A buffer holding one string entry has no
numeric entries, yet `stats().avg` is present (0), because `avg` is
unconditionally `sum / size`.  Both contradict the claim. -/
theorem C6_counterexample :
    (pushAll (empty 2) exNegPushes).getStats.max ≠ some (-5) ∧
    (pushAll (empty 2) exNegPushes).getStats.max = none ∧
    (pushAll (empty 2) exStrPushes).getStats.avg ≠ none ∧
    (pushAll (empty 2) exStrPushes).getStats.avg = some 0 := by
  have hmax : max NumberMINVALUE (-5 : ℚ) = NumberMINVALUE := by
    apply max_eq_left
    simp only [NumberMINVALUE]
    norm_num
  have h1 : (pushAll (empty 2) exNegPushes).getStats.max
      = (if max NumberMINVALUE (-5 : ℚ) = NumberMINVALUE then none
        else some (max NumberMINVALUE (-5 : ℚ))) := rfl
  have h1' : (pushAll (empty 2) exNegPushes).getStats.max = none := by
    rw [h1, if_pos hmax]
  have h2 : (pushAll (empty 2) exStrPushes).getStats.avg
      = some ((0 : ℚ) / ((1 : ℕ) : ℚ)) := rfl
  have h2' : (pushAll (empty 2) exStrPushes).getStats.avg = some 0 := by
    rw [h2]
    norm_num
  refine ⟨?_, h1', ?_, h2'⟩
  · rw [h1']
    simp
  · rw [h2']
    simp

open CircularBuffer in
/-- Witness for `C6_stats_amended` on a capacity-2 buffer fed three pushes. -/
theorem C6_stats_amended_witness :
    (pushAll (empty 2) exMixedPushes).getStats.count =
      (pushAll (empty 2) exMixedPushes).size ∧
    (pushAll (empty 2) exMixedPushes).getStats.avg =
      some (((chronPushes 2 exMixedPushes).filterMap (fun p => p.value.numOf)).sum /
        ((pushAll (empty 2) exMixedPushes).size : ℚ)) :=
  ⟨(C6_stats_amended 2 (by decide) exMixedPushes (by decide)).1,
   (C6_stats_amended 2 (by decide) exMixedPushes (by decide)).2.2.1⟩

open CircularBuffer in
/-- Witness for `C2_overwrite_law` at capacity 2 with 3 pushes. -/
theorem C2_overwrite_law_witness :
    (0 : Nat) < 2 ∧ 2 < exPushes.length ∧
    (pushAll (empty 2) exPushes).length = 2 ∧
    (pushAll (empty 2) exPushes).oldest =
      (exPushes[exPushes.length - 2]?).map PushIn.entry ∧
    (pushAll (empty 2) exPushes).latest =
      (exPushes[exPushes.length - 1]?).map PushIn.entry :=
  ⟨by decide, by decide,
    (C2_overwrite_law 2 (by decide) exPushes (by decide)).1,
    (C2_overwrite_law 2 (by decide) exPushes (by decide)).2.1,
    (C2_overwrite_law 2 (by decide) exPushes (by decide)).2.2.2.1⟩

open CircularBuffer in
/-- Witness for `C10_at_totality` at capacity 2 with 3 pushes, probing the
out-of-range index 5 and the in-range index 1. -/
theorem C10_at_totality_witness :
    (pushAll (empty 2) exPushes).atIndex 5 = none ∧
    (pushAll (empty 2) exPushes).atIndex 1 =
      (exPushes[exPushes.length - (pushAll (empty 2) exPushes).size +
        (1 : Int).toNat]?).map PushIn.entry ∧
    ((pushAll (empty 2) exPushes).atIndex 1).isSome :=
  ⟨(C10_at_totality 2 (by decide) exPushes 5).1 (by decide),
    ((C10_at_totality 2 (by decide) exPushes 1).2 (by decide) (by decide)).1,
    ((C10_at_totality 2 (by decide) exPushes 1).2 (by decide) (by decide)).2⟩

/-- C1 counterexample.  Take the concrete job `exWriteJob` processed at time
7 while the PLC Session write FAILS.  The claim demands the returned result
indicate failure; the handler returns `success = true` unconditionally, and
its trace contains no Session report at all (it emits the job onto the event
bus and acknowledges immediately). -/
theorem C1_counterexample :
    ¬ ((variableWriteResult exWriteJob 7).success = false) ∧
    (variableWriteResult exWriteJob 7).success = true ∧
    (∀ b, WriteTraceEvent.sessionReport b ∉ variableWriteHandlerTrace exWriteJob 7) := by
  refine ⟨by decide, by decide, by decide⟩

/-- C1 (amended): the variable-write handler acknowledges every processed
job with `success = true` unconditionally; the acknowledgement neither waits
for nor encodes any Session write report — no Session report occurs in the
handler's trace, while the success acknowledgement does. -/
theorem C1_write_ack_amended (job : VariableWriteJob) (now : Nat) :
    (variableWriteResult job now).success = true ∧
    (∀ b, WriteTraceEvent.sessionReport b ∉ variableWriteHandlerTrace job now) ∧
    WriteTraceEvent.acked true now ∈ variableWriteHandlerTrace job now := by
  refine ⟨rfl, ?_, ?_⟩
  · intro b
    simp [variableWriteHandlerTrace, variableWriteResult]
  · simp [variableWriteHandlerTrace, variableWriteResult]

/-- Witness for `C1_write_ack_amended` on the concrete job `exWriteJob`
processed at time 1000. -/
theorem C1_write_ack_amended_witness :
    (variableWriteResult exWriteJob 1000).success = true ∧
    WriteTraceEvent.acked true 1000 ∈ variableWriteHandlerTrace exWriteJob 1000 :=
  ⟨(C1_write_ack_amended exWriteJob 1000).1,
    (C1_write_ack_amended exWriteJob 1000).2.2⟩

/-- C3 counterexample.  With the backend unreachable (the awaited operation
rejects with `ECONNREFUSED`), the claim demands `get` return a miss and
`set` drop the value, both without error; instead both operations propagate
the error to the caller. -/
theorem C3_counterexample :
    redisGet (V := JsVal) (.error "ECONNREFUSED") 1000 = .error "ECONNREFUSED" ∧
    (¬ ∃ r, redisGet (V := JsVal) (.error "ECONNREFUSED") 1000 = .ok r) ∧
    redisSet (.error "ECONNREFUSED") = .error "ECONNREFUSED" ∧
    (¬ ∃ r, redisSet (.error "ECONNREFUSED") = .ok r) := by
  refine ⟨rfl, ?_, rfl, ?_⟩
  · rintro ⟨r, h⟩
    simp [redisGet] at h
  · rintro ⟨r, h⟩
    simp [redisSet] at h

/-- C3 (amended): `get` returns a miss exactly when the backend responds
with no data, or with an entry past its TTL (then also deleting it); `set`
records the value and emits a `set` event when the backend write succeeds;
but when the backend operation errors, both `get` and `set` PROPAGATE the
error to the caller instead of degrading to miss/drop. -/
theorem C3_cache_amended {V : Type} :
    (∀ (e : String) (now : Nat), redisGet (V := V) (.error e) now = .error e) ∧
    (∀ now : Nat, redisGet (V := V) (.ok none) now = .ok (none, [.miss])) ∧
    (∀ (entry : CacheEntry V) (now t : Nat), entry.ttl = some t → t ≠ 0 →
      t * 1000 < now - entry.timestamp →
      redisGet (.ok (some entry)) now = .ok (none, [.delete, .miss])) ∧
    (∀ (entry : CacheEntry V) (now : Nat), entry.ttl = none →
      redisGet (.ok (some entry)) now = .ok (some entry.value, [.hit])) ∧
    (∀ e : String, redisSet (.error e) = .error e) ∧
    redisSet (.ok ()) = .ok [.set] := by
  refine ⟨fun e now => rfl, fun now => rfl, ?_, ?_, fun e => rfl, rfl⟩
  · intro entry now t ht htz hexp
    simp [redisGet, ht, htz, hexp]
  · intro entry now ht
    simp [redisGet, ht]

/-- Witness for `C3_cache_amended`: a concrete expired entry
(written at 0 with TTL 1 s, read at 2000 ms) yields delete+miss, and a
backend error propagates. -/
theorem C3_cache_amended_witness :
    redisGet (V := JsVal) (.ok (some ⟨.num 1, 0, some 1⟩)) 2000 =
      .ok (none, [.delete, .miss]) ∧
    redisGet (V := JsVal) (.error "backend down") 5 = .error "backend down" :=
  ⟨(C3_cache_amended (V := JsVal)).2.2.1 ⟨.num 1, 0, some 1⟩ 2000 1 rfl
      (by decide) (by decide),
    (C3_cache_amended (V := JsVal)).1 "backend down" 5⟩

/-- C4 counterexample.  A Session error on connection `c1` (both the
gateway-level `error` and the per-variable `variable-error`) makes the
Connection Manager forward one event and schedule NOTHING: in particular no
1000 ms retry timer — the claimed exponential-backoff reconnection does not
exist in the code. -/
theorem C4_counterexample :
    handleGatewayError "c1" "PLC 1" = [MgrEffect.emitEvent "connection-error" "c1"] ∧
    MgrEffect.scheduleTimeout 1000 ∉ handleGatewayError "c1" "PLC 1" ∧
    handleVariableError "c1" = [MgrEffect.emitEvent "variable-error" "c1"] ∧
    MgrEffect.scheduleTimeout 1000 ∉ handleVariableError "c1" := by
  refine ⟨rfl, by decide, rfl, by decide⟩

/-- C4 (amended): when a Session reports an error, the Connection Manager
only forwards it (`connection-error` / `variable-error` annotated with the
connection id) and schedules no reconnection attempt of any delay; the
variable's last-good `value` and `timestamp` are preserved by the failing
poll tick, which merely records the error string. -/
theorem C4_error_forwarding_amended (connId nm : String) (v : AdsVar) (e : String)
    (now : Nat) (d : ℚ) :
    handleGatewayError connId nm = [.emitEvent "connection-error" connId] ∧
    handleVariableError connId = [.emitEvent "variable-error" connId] ∧
    (∀ delay, MgrEffect.scheduleTimeout delay ∉ handleGatewayError connId nm) ∧
    (∀ delay, MgrEffect.scheduleTimeout delay ∉ handleVariableError connId) ∧
    (pollTick v (.error e) now d).1.value = v.value ∧
    (pollTick v (.error e) now d).1.timestamp = v.timestamp ∧
    (pollTick v (.error e) now d).1.error = some e ∧
    (∀ delay, MgrEffect.scheduleTimeout delay ∉ (pollTick v (.error e) now d).2) := by
  refine ⟨rfl, rfl, ?_, ?_, rfl, rfl, rfl, ?_⟩ <;>
    intro delay <;> simp [handleGatewayError, handleVariableError, pollTick]

/-- Witness for `C4_error_forwarding_amended`: a concrete failing read on
`exParentVar` keeps the last-good value and records the error string. -/
theorem C4_error_forwarding_amended_witness :
    (pollTick exParentVar (.error "timeout") 5 0).1.value = exParentVar.value ∧
    (pollTick exParentVar (.error "timeout") 5 0).1.error = some "timeout" :=
  ⟨(C4_error_forwarding_amended "c1" "PLC 1" exParentVar "timeout" 5 0).2.2.2.2.1,
    (C4_error_forwarding_amended "c1" "PLC 1" exParentVar "timeout" 5 0).2.2.2.2.2.2.1⟩

/-- C7 counterexample.  A virtual sub-variable created by struct expansion
(here field `temperature` of `exParentVar`) gets a handle with NEITHER a
notification handle NOR a poll timer — the claimed "exactly one" invariant
fails for struct-derived Variables. -/
theorem C7_counterexample :
    (mkSubHandle exParentVar "temperature" (.num 1) 0 1).notificationHandle = false ∧
    (mkSubHandle exParentVar "temperature" (.num 1) 0 1).pollTimer = false := by
  exact ⟨rfl, rfl⟩

/-- C7 (amended): for a Variable registered through `addVariable`, after
`startPolling` completes exactly one of the notification handle or the poll
timer exists (whatever the notification preference, client presence and
subscription outcome); Variables derived from struct expansion are excluded
— their handles carry neither and are refreshed through the parent. -/
theorem C7_subscription_xor_amended (v : AdsVar) (value : JsVal) (hid : Nat)
    (clientPresent : Bool) (subRes : Except String Unit) :
    (startPolling (mkAddHandle v value hid) clientPresent subRes).1.notificationHandle ≠
      (startPolling (mkAddHandle v value hid) clientPresent subRes).1.pollTimer ∧
    (mkSubHandle v "f" (.num 0) 0 0).notificationHandle = false ∧
    (mkSubHandle v "f" (.num 0) 0 0).pollTimer = false := by
  refine ⟨?_, rfl, rfl⟩
  rcases subRes with e | u <;>
    simp only [startPolling, mkAddHandle] <;>
    split <;> simp

/-- Witness for `C7_subscription_xor_amended`: registering `exParentVar`
with a present client and a successful subscription yields a notification
handle and no poll timer. -/
theorem C7_subscription_xor_amended_witness :
    (startPolling (mkAddHandle exParentVar (.num 1) 0) true (.ok ())).1.notificationHandle ≠
      (startPolling (mkAddHandle exParentVar (.num 1) 0) true (.ok ())).1.pollTimer :=
  (C7_subscription_xor_amended exParentVar (.num 1) 0 true (.ok ())).1

/-- C5: OnlineChange idempotence.  When no run is in flight and the counter
read from the PLC equals the last observed value, `checkForChanges` emits no
event at all and leaves the state — the symbol table included —
unchanged. -/
theorem C5_onlinechange_idempotent (connectionId : String)
    (cfg : SymbolDiscoveryConfig) (st : DiscoveryState)
    (symbolsRead : Except String (List AdsRawSymbol))
    (hidle : st.isDiscovering = false) :
    checkForChanges connectionId cfg st (.ok st.lastSymbolVersion) symbolsRead
      = (st, []) := by
  simp [checkForChanges, hidle]

/-- Witness for `C5_onlinechange_idempotent` on a concrete idle state whose
last observed counter is 7. -/
theorem C5_onlinechange_idempotent_witness :
    exDiscoveryState.isDiscovering = false ∧
    checkForChanges "c1" exDiscoveryCfg exDiscoveryState (.ok 7) (.ok [])
      = (exDiscoveryState, []) :=
  ⟨rfl, C5_onlinechange_idempotent "c1" exDiscoveryCfg exDiscoveryState (.ok [])
    (by decide)⟩

/-- C8 counterexample.  The Variable derived from the concrete symbol
`MAIN.temp` does not carry `useNotification = true`: the field is left unset
(`none`) by `symbolsToVariables`. -/
theorem C8_counterexample :
    ¬ (∀ v ∈ symbolsToVariables "c1" exDiscoveryCfg [exSymbol],
        v.useNotification = some true) ∧
    (symbolsToVariables "c1" exDiscoveryCfg [exSymbol]).map
      (fun v => v.useNotification) = [none] := by
  constructor
  · intro h
    have := h exDerivedVar (by decide)
    exact absurd this (by decide)
  · decide

/-- C8 (amended): every Variable the discovery loop derives carries
`samplePeriod` (`pollInterval`) equal to the configured
`defaultSamplePeriod`, and its `useNotification` field is UNSET — which the
gateway's `addVariable` then interprets as notification mode
(`useNotification !== false`), so the effective subscription mode is
notification. -/
theorem C8_discovery_variables_amended (connectionId : String)
    (cfg : SymbolDiscoveryConfig) (symbols : List PlcSymbol) :
    ∀ v ∈ symbolsToVariables connectionId cfg symbols,
      v.pollInterval = cfg.defaultPollInterval ∧
      v.useNotification = none ∧
      effectiveUseNotification v = true := by
  intro v hv
  simp only [symbolsToVariables, List.mem_map] at hv
  obtain ⟨symbol, -, rfl⟩ := hv
  exact ⟨rfl, rfl, rfl⟩

/-- Witness for `C8_discovery_variables_amended` at the concrete symbol
`MAIN.temp`. -/
theorem C8_discovery_variables_amended_witness :
    exDerivedVar ∈ symbolsToVariables "c1" exDiscoveryCfg [exSymbol] ∧
    exDerivedVar.pollInterval = exDiscoveryCfg.defaultPollInterval ∧
    exDerivedVar.useNotification = none ∧
    effectiveUseNotification exDerivedVar = true := by
  have hmem : exDerivedVar ∈ symbolsToVariables "c1" exDiscoveryCfg [exSymbol] := by
    decide
  exact ⟨hmem,
    (C8_discovery_variables_amended "c1" exDiscoveryCfg [exSymbol] exDerivedVar hmem).1,
    (C8_discovery_variables_amended "c1" exDiscoveryCfg [exSymbol] exDerivedVar hmem).2.1,
    (C8_discovery_variables_amended "c1" exDiscoveryCfg [exSymbol] exDerivedVar hmem).2.2⟩

/-- Any metrics record `getOperationMetrics` returns carries
`lastUpdate = now`, the query time. -/
theorem getOperationMetrics_lastUpdate (m : PerfMonitor) (op : String)
    (now : Nat) (om : OperationMetrics)
    (h : getOperationMetrics m op now = some om) : om.lastUpdate = now := by
  unfold getOperationMetrics at h
  split at h
  · exact absurd h (by simp)
  · split at h
    · exact absurd h (by simp)
    · simp only [Option.some.injEq] at h
      rw [← h]

/-- C9: the periodic cleanup never removes anything.  Because
`getOperationMetrics` reports `lastUpdate` as the query time, the age
computed by `cleanup` is always 0, so `cleanup` is the identity on the
monitor state — operations idle for more than an hour are kept, contradicting
the claim (and the code's own comment "Remove operations with no recent
activity"). -/
theorem C9_cleanup_noop (m : PerfMonitor) (now : Nat) : cleanup m now = m := by
  have hstale : ∀ p ∈ m.metrics,
      (match getOperationMetrics m p.1 now with
        | some om => decide (3600000 < now - om.lastUpdate)
        | none => false) = false := by
    intro p _
    match hgm : getOperationMetrics m p.1 now with
    | none => rfl
    | some om =>
        have hlu := getOperationMetrics_lastUpdate m p.1 now om hgm
        simp [hlu]
  unfold cleanup
  have hfilter : (m.metrics.filter (fun p =>
      match getOperationMetrics m p.1 now with
      | some om => decide (3600000 < now - om.lastUpdate)
      | none => false)) = [] := by
    rw [List.filter_eq_nil_iff]
    intro p hp
    simp [hstale p hp]
  rw [hfilter]
  simp

end ADSBroker
